import Mathlib

/-!
Verification development for the FaaSr integration-test workflow runner.

The definitions below are a shallow embedding of the Python sources
`src/framework/workflow_runner.py`, `src/framework/s3_client.py` and
`src/framework/faasr_function_logger.py`.  Data and helpers that live in
repository modules not present under `src/` (`framework/faasr_function.py`,
`framework/utils/__init__.py`, `framework/utils/enums.py`) are modelled from
the specification, and each such definition carries a doc comment starting
with the words Modelled from the spec.
-/

namespace FaaSr

/-- The eight function statuses of `framework.utils.enums.FunctionStatus`
(the enum module is not under `src/`; the set of values is taken from the
specification, section 3). -/
inductive FunctionStatus where
  | PENDING
  | INVOKED
  | NOT_INVOKED
  | RUNNING
  | COMPLETED
  | FAILED
  | SKIPPED
  | TIMEOUT
deriving DecidableEq, Repr

/-- The resolver outcomes of `framework.utils.enums.InvocationStatus`. -/
inductive InvocationStatus where
  | PENDING
  | INVOKED
  | NOT_INVOKED
deriving DecidableEq, Repr

/-- Modelled from the spec: `framework.utils.pending` (module not under
`src/`): a status is pending exactly when it is PENDING. -/
def pending : FunctionStatus → Bool
  | .PENDING => true
  | _ => false

/-- Modelled from the spec: `framework.utils.failed` (module not under
`src/`): a status is failed exactly when it is FAILED. -/
def failed : FunctionStatus → Bool
  | .FAILED => true
  | _ => false

/-- Modelled from the spec: `framework.utils.has_completed` (module not under
`src/`).  The spec uses it for step 4 of the monitor tick, "every instance is
COMPLETED or NOT_INVOKED", and for the cascade guard, "not already
COMPLETED/NOT_INVOKED". -/
def has_completed : FunctionStatus → Bool
  | .COMPLETED => true
  | .NOT_INVOKED => true
  | _ => false

/-- Modelled from the spec: `framework.utils.has_final_state` (module not
under `src/`).  Spec section 3: COMPLETED, FAILED, NOT_INVOKED, SKIPPED and
TIMEOUT are final. -/
def has_final_state : FunctionStatus → Bool
  | .COMPLETED => true
  | .FAILED => true
  | .NOT_INVOKED => true
  | .SKIPPED => true
  | .TIMEOUT => true
  | _ => false

/-- Instance identity: base name plus optional 1-based rank.  Python encodes
this as the string `base(rank)` (rank omitted when the rank count is 1); the
encoding is injective on generated names, so we keep the two components. -/
structure InstanceId where
  base : String
  rank : Option Nat
deriving DecidableEq, Repr

/-- Modelled from the spec: `framework.utils.extract_function_name` (module
not under `src/`) strips the rank suffix from an instance name and returns
the base node name. -/
def extract_function_name (i : InstanceId) : String := i.base

/-- Modelled from the spec: the value of `FaaSrFunction.invocations`
(`framework/faasr_function.py` is not under `src/`).  Spec section 4.3: the
invoked-children set of an instance is an optional set, known only once the
completion artifact of the instance is observed; reading it performs a store
poll, and a non-NotFound store failure raises `S3ClientError` to the caller
of the poll (spec section 7).  `storeError` stands for that raising read. -/
inductive Invocations where
  | unknown
  | known (children : List String)
  | storeError
deriving DecidableEq, Repr

/-- One function instance as the monitor sees it: identity, mutable status,
and the derived invocation outcome (see `Invocations`). -/
structure FaaSrFunction where
  function_name : InstanceId
  status : FunctionStatus
  invocations : Invocations
deriving DecidableEq, Repr

/-- Modelled from the spec: `FaaSrFunction.set_status`
(`framework/faasr_function.py` is not under `src/`).  Spec sections 4.1 and
7: it rejects, as a fatal programming-invariant violation, any attempt to
overwrite an already-final status.  `none` models the raised error (the
status is left unchanged). -/
def set_status (f : FaaSrFunction) (s : FunctionStatus) : Option FaaSrFunction :=
  if has_final_state f.status then none else some { f with status := s }

/-! ## Invocation status resolver (`workflow_runner.py`) -/

/-- Modelled from the spec: the boolean value of an `InvocationStatus` member
(the enum module is not under `src/`).  `_check_invocation_status` tests the
result of `_get_invocation_status` for truthiness with a walrus `if`; per the
resolver pseudocode of spec section 4.2, a NOT_INVOKED answer from one
invoker means "continue with the next invoker" while PENDING and INVOKED
short-circuit, so NOT_INVOKED is the falsy member. -/
def invocationTruthy : InvocationStatus → Bool
  | .NOT_INVOKED => false
  | _ => true

/-- `WorkflowRunner._get_invocation_status`: the invocation status of
`function` as seen from one `invoker` instance.  `none` models the store
error raised while reading `invoker.invocations`. -/
def _get_invocation_status (invoker function : FaaSrFunction) :
    Option InvocationStatus :=
  match invoker.invocations with
  | .storeError => none
  | .known invs =>
      if extract_function_name function.function_name ∈ invs then
        some InvocationStatus.INVOKED
      else
        some InvocationStatus.NOT_INVOKED
  | .unknown => some InvocationStatus.PENDING

/-- `WorkflowRunner._check_invocation_status`.  The `invokers` parameter is
the chained sequence `chain(iter_ranks(b) for b in reverse_adj_graph[base])`
of invoker instances, made explicit because Python iterates the reverse
adjacency set in an unspecified order; rank order inside one base is
ascending.  `none` models an escaping store error. -/
def _check_invocation_status (invokers : List FaaSrFunction)
    (function : FaaSrFunction) : Option InvocationStatus :=
  match invokers with
  | [] => some InvocationStatus.NOT_INVOKED
  | inv :: rest =>
      match _get_invocation_status inv function with
      | none => none
      | some s =>
          if invocationTruthy s then some s
          else _check_invocation_status rest function

/-! ## Store adapter (`s3_client.py`) -/

/-- Outcome of one underlying boto3 call (`head_object` / `get_object`), the
input over which `FaaSrS3Client` is verified: a successful response with a
body, a `ClientError` carrying an error code, or any other exception. -/
inductive S3CallResult where
  | success (body : String)
  | clientError (code : String)
  | otherExc
deriving DecidableEq, Repr

/-- Result of a `FaaSrS3Client` method: a returned value, a raised
`S3ClientError`, or an exception that escapes unwrapped. -/
inductive S3Outcome (α : Type) where
  | ok (a : α)
  | s3ClientError
  | uncaught
deriving DecidableEq, Repr

/-- `FaaSrS3Client.object_exists`: a 404 `ClientError` returns `false`, any
other `ClientError` raises `S3ClientError`, a successful head returns
`true`; only `ClientError` is caught, so any other exception escapes. -/
def object_exists (r : S3CallResult) : S3Outcome Bool :=
  match r with
  | .success _ => .ok true
  | .clientError code =>
      if code = "404" then .ok false else .s3ClientError
  | .otherExc => .uncaught

/-- `FaaSrS3Client.get_object`: the decoded body on success; a 404
`ClientError`, any other `ClientError`, and any unhandled exception all
raise `S3ClientError`. -/
def get_object (r : S3CallResult) : S3Outcome String :=
  match r with
  | .success body => .ok body
  | .clientError code =>
      if code = "404" then .s3ClientError else .s3ClientError
  | .otherExc => .s3ClientError

/-! ## Reverse adjacency graph (`workflow_runner.py`) -/

/-- `WorkflowRunner._build_reverse_adjacency_graph`: invert the forward
adjacency dict.  The forward graph is the list of `adj_graph.items()`; the
`defaultdict(set)` result is modelled as a total function with default `∅`,
and `set.add` as `insert`. -/
def _build_reverse_adjacency_graph (adj : List (String × List String)) :
    String → Finset String :=
  adj.foldl
    (fun g p =>
      p.2.foldl (fun g2 fn => Function.update g2 fn (insert p.1 (g2 fn))) g)
    (fun _ => (∅ : Finset String))

/-- Forward lookup in the adjacency dict, with absent keys read as the empty
collection (`adj_graph` is a plain dict read with `[]` on present keys). -/
def forwardLookup (adj : List (String × List String)) (u : String) :
    List String :=
  (((adj.find? (fun p => p.1 == u)).map Prod.snd).getD [])

/-! ## Instance registry (`workflow_runner.py`) -/

/-- `WorkflowRunner._iter_ranks`: a rank count of at most 1 yields the bare
base name; otherwise the instances `base(1)` through `base(R)`. -/
def _iter_ranks (ranks : String → Nat) (function_name : String) :
    List InstanceId :=
  if ranks function_name ≤ 1 then [⟨function_name, none⟩]
  else (List.range (ranks function_name)).map
    (fun r => ⟨function_name, some (r + 1)⟩)

/-- `WorkflowRunner._build_functions`: one `FaaSrFunction` per rank of every
base name, freshly constructed (initial status PENDING, invoked-children
unknown — the constructor defaults are modelled from the spec, section 4.1,
since `framework/faasr_function.py` is not under `src/`), with
`set_status(INVOKED)` applied to the instances whose extracted base name is
the workflow entry point `workflow_invoke`. -/
def _build_functions (function_names : List String) (ranks : String → Nat)
    (workflow_invoke : String) : List FaaSrFunction :=
  ((function_names.map (_iter_ranks ranks)).flatten).map fun fid =>
    let f : FaaSrFunction :=
      { function_name := fid, status := .PENDING, invocations := .unknown }
    if extract_function_name fid == workflow_invoke then
      match set_status f .INVOKED with
      | some f2 => f2
      | none => f
    else f

/-! ## Workflow monitor (`workflow_runner.py`)

The monitor loop runs in a background thread; it is modelled as a
fuel-bounded recursive function over an explicit state.  Wall-clock time is
a `clock` field advanced by `check_interval` at the `sleep` point of each
iteration; `time.time()` reads the clock.  `FaaSrFunction.status` values of
RUNNING, COMPLETED and FAILED are produced by store polling inside
`FaaSrFunction` (not under `src/`); the model treats those transitions as
changes of the state handed to a tick. -/

/-- The Python exceptions that can leave a monitor tick: the `StopMonitoring`
control signal, a store `S3ClientError`, and the fatal error of an illegal
final-status overwrite (spec section 7). -/
inductive RunnerExc where
  | stopMonitoring
  | s3ClientError
  | illegalTransition
deriving DecidableEq, Repr

/-- The mutable per-run monitor state of `WorkflowRunner`. -/
structure MonitorState where
  functions : List FaaSrFunction
  prev : InstanceId → FunctionStatus
  clock : Nat
  last_change_time : Nat
  seconds_since_last_change : Nat
  shutdown_requested : Bool
  monitoring_complete : Bool

/-- `WorkflowRunner._reset_timer`. -/
def _reset_timer (s : MonitorState) : MonitorState :=
  { s with last_change_time := s.clock, seconds_since_last_change := 0 }

/-- `WorkflowRunner._increment_timer`. -/
def _increment_timer (s : MonitorState) : MonitorState :=
  { s with seconds_since_last_change := s.clock - s.last_change_time }

/-- `WorkflowRunner._did_timeout`. -/
def _did_timeout (timeout : Nat) (s : MonitorState) : Bool :=
  timeout ≤ s.seconds_since_last_change

/-- `WorkflowRunner._handle_pending`: resolve one PENDING function; on a
decisive result reset the timer and commit the status.  Returns the updated
function together with the timer fields, or the escaping exception.  The
caller guards with `pending(function.status)`, so the `set_status` failure
branch is unreachable. -/
def _handle_pending (invokers : List FaaSrFunction) (f : FaaSrFunction)
    (clock last_change_time seconds_since_last_change : Nat) :
    Except RunnerExc (FaaSrFunction × Nat × Nat) :=
  match _check_invocation_status invokers f with
  | none => .error .s3ClientError
  | some .INVOKED =>
      match set_status f .INVOKED with
      | some f2 => .ok (f2, clock, 0)
      | none => .error .illegalTransition
  | some .NOT_INVOKED =>
      match set_status f .NOT_INVOKED with
      | some f2 => .ok (f2, clock, 0)
      | none => .error .illegalTransition
  | some .PENDING => .ok (f, last_change_time, seconds_since_last_change)

/-- Accumulator threaded through the per-function loop of
`_monitor_workflow_execution`: the previous-status snapshot, the two timer
fields, the `workflow_failed` flag, and a pending exception. -/
structure TickAcc where
  prev : InstanceId → FunctionStatus
  last_change_time : Nat
  seconds_since_last_change : Nat
  workflow_failed : Bool
  exc : Option RunnerExc

/-- The `for function in self._functions.values()` loop of
`_monitor_workflow_execution`: handle pending functions, record status
changes against the previous snapshot, and break with `workflow_failed` on
the first FAILED function.  An exception from `_handle_pending` aborts the
loop with the remaining functions untouched. -/
def monitorLoop (getInvokers : FaaSrFunction → List FaaSrFunction)
    (clock : Nat) : List FaaSrFunction → TickAcc →
    List FaaSrFunction × TickAcc
  | [], acc => ([], acc)
  | f :: rest, acc =>
      match
        (if pending f.status then
          _handle_pending (getInvokers f) f clock acc.last_change_time
            acc.seconds_since_last_change
        else
          .ok (f, acc.last_change_time, acc.seconds_since_last_change)) with
      | .error e => (f :: rest, { acc with exc := some e })
      | .ok (f2, lct, sslc) =>
          let acc1 : TickAcc :=
            { acc with last_change_time := lct,
                       seconds_since_last_change := sslc }
          let acc2 : TickAcc :=
            if acc1.prev f2.function_name ≠ f2.status then
              { acc1 with
                  prev := Function.update acc1.prev f2.function_name f2.status }
            else acc1
          if failed f2.status then
            (f2 :: rest, { acc2 with workflow_failed := true })
          else
            let r := monitorLoop getInvokers clock rest acc2
            (f2 :: r.1, r.2)

/-- `WorkflowRunner._all_functions_completed`. -/
def _all_functions_completed (fns : List FaaSrFunction) : Bool :=
  fns.all (fun f => has_completed f.status)

/-- `WorkflowRunner._cascade_failure`: set every function whose status is not
`has_completed` to SKIPPED.  A `set_status` rejection (overwriting a final
status) raises, leaving that function and the remaining ones untouched. -/
def _cascade_failure : List FaaSrFunction →
    List FaaSrFunction × Option RunnerExc
  | [] => ([], none)
  | f :: rest =>
      if has_completed f.status then
        let r := _cascade_failure rest
        (f :: r.1, r.2)
      else
        match set_status f .SKIPPED with
        | some f2 =>
            let r := _cascade_failure rest
            (f2 :: r.1, r.2)
        | none => (f :: rest, some .illegalTransition)

/-- `WorkflowRunner._monitor_workflow_execution`: one reconciliation tick.
Returns the updated state and the exception leaving the tick, if any
(`stopMonitoring` on success or detected failure). -/
def _monitor_workflow_execution (getInvokers : FaaSrFunction → List FaaSrFunction)
    (s : MonitorState) : MonitorState × Option RunnerExc :=
  let r := monitorLoop getInvokers s.clock s.functions
    ⟨s.prev, s.last_change_time, s.seconds_since_last_change, false, none⟩
  let s1 : MonitorState :=
    { s with functions := r.1, prev := r.2.prev,
             last_change_time := r.2.last_change_time,
             seconds_since_last_change := r.2.seconds_since_last_change }
  match r.2.exc with
  | some e => (s1, some e)
  | none =>
      if _all_functions_completed s1.functions then
        (s1, some .stopMonitoring)
      else if r.2.workflow_failed then
        let c := _cascade_failure s1.functions
        let s2 := { s1 with functions := c.1 }
        match c.2 with
        | some e => (s2, some e)
        | none => (s2, some .stopMonitoring)
      else (s1, none)

/-- `WorkflowRunner._finish_monitoring`: on loop exit, every non-final
function becomes SKIPPED when a shutdown was requested and TIMEOUT
otherwise; then the monitoring-complete flag is latched.  `set_status` is
only applied to non-final statuses, so it always succeeds. -/
def _finish_monitoring (s : MonitorState) : MonitorState :=
  let fns := s.functions.map fun f =>
    if !(has_final_state f.status) && s.shutdown_requested then
      (set_status f .SKIPPED).getD f
    else if !(has_final_state f.status) then
      (set_status f .TIMEOUT).getD f
    else f
  { s with functions := fns, monitoring_complete := true }

/-- How a monitor run ends: normally (through `_finish_monitoring`), by an
exception other than `StopMonitoring` escaping `_start_monitoring` (the
thread dies and finalization is skipped), or out of fuel. -/
inductive RunExit where
  | finished
  | crashed (e : RunnerExc)
  | fuelOut
deriving DecidableEq, Repr

/-- The `while` loop of `WorkflowRunner._start_monitoring`: exit through
`_finish_monitoring` on timeout, shutdown request or `StopMonitoring`; any
other exception from the tick escapes uncaught.  The `sleep` advances the
clock by `check_interval`. -/
def _monitoring_while (getInvokers : FaaSrFunction → List FaaSrFunction)
    (timeout check_interval : Nat) :
    Nat → MonitorState → MonitorState × RunExit
  | 0, s => (s, .fuelOut)
  | fuel + 1, s =>
      if _did_timeout timeout s || s.shutdown_requested then
        (_finish_monitoring s, .finished)
      else
        match _monitor_workflow_execution getInvokers s with
        | (s1, some .stopMonitoring) => (_finish_monitoring s1, .finished)
        | (s1, some e) => (s1, .crashed e)
        | (s1, none) =>
            let s2 := _increment_timer s1
            _monitoring_while getInvokers timeout check_interval fuel
              { s2 with clock := s2.clock + check_interval }

/-- `WorkflowRunner._start_monitoring`: reset the timer, then run the
monitoring loop. -/
def _start_monitoring (getInvokers : FaaSrFunction → List FaaSrFunction)
    (timeout check_interval fuel : Nat) (s : MonitorState) :
    MonitorState × RunExit :=
  _monitoring_while getInvokers timeout check_interval fuel (_reset_timer s)

/-! ## Function log monitor (`faasr_function_logger.py`) -/

/-- `faasr_function_logger.LogEvent`. -/
inductive LogEvent where
  | LOG_CREATED
  | LOG_UPDATED
  | LOG_COMPLETE
deriving DecidableEq, Repr

/-- The per-logger state of `FaaSrFunctionLogger`: the buffered lines and the
started / complete flags. -/
structure LoggerState where
  logs : List String
  logs_started : Bool
  logs_complete : Bool
deriving DecidableEq, Repr

/-- One iteration of the `while` body of `FaaSrFunctionLogger._run`.
`artifact` is the remote log object at this poll: `none` when it does not
exist, `some lines` otherwise; `stop` is the stop-requested flag.  Before the
artifact has been seen, its appearance fires LOG_CREATED; afterwards the new
suffix beyond the buffered lines is appended and fires LOG_UPDATED, and a
poll with no new lines while stop is requested latches completion and fires
LOG_COMPLETE.  The result is `none` when `_get_logs` raises (artifact gone
while started): that error propagates out of the poll loop. -/
def loggerStep (stop : Bool) (artifact : Option (List String))
    (s : LoggerState) : Option (LoggerState × List LogEvent) :=
  if s.logs_started = false then
    match artifact with
    | some _ => some ({ s with logs_started := true }, [LogEvent.LOG_CREATED])
    | none => some (s, [])
  else
    match artifact with
    | none => none
    | some log_content =>
        let new_logs := log_content.drop s.logs.length
        let s1 := if new_logs = [] then s
                  else { s with logs := s.logs ++ new_logs }
        let evs := if new_logs = [] then ([] : List LogEvent)
                   else [LogEvent.LOG_UPDATED]
        if stop = true ∧ new_logs = [] then
          some ({ s1 with logs_complete := true }, evs ++ [LogEvent.LOG_COMPLETE])
        else
          some (s1, evs)

/-- The `while not self.logs_complete` loop of `FaaSrFunctionLogger._run`,
driven by a finite trace of poll cycles, each an observed (stop flag,
artifact) pair.  Returns the final state and the concatenated event
sequence, or `none` if a poll raised. -/
def runLogger : List (Bool × Option (List String)) → LoggerState →
    Option (LoggerState × List LogEvent)
  | [], s => some (s, [])
  | cyc :: rest, s =>
      if s.logs_complete then some (s, [])
      else
        match loggerStep cyc.1 cyc.2 s with
        | none => none
        | some (s1, evs) =>
            match runLogger rest s1 with
            | none => none
            | some (s2, evs2) => some (s2, evs ++ evs2)

/-- Does this invoker instance report `child` among its invoked children?
Decidable reading of `Invocations.known` membership, used to state resolver
properties. -/
def invokedChild (g : FaaSrFunction) (child : String) : Bool :=
  match g.invocations with
  | .known ch => decide (child ∈ ch)
  | _ => false

/-! ## Concrete example inputs used by the claim theorems -/

/-- An invoker-list environment that gives every function no invokers. -/
def gInvNone : FaaSrFunction → List FaaSrFunction := fun _ => []

/-- Instance `c`, pending, children unknown. -/
def exC : FaaSrFunction := ⟨⟨"c", none⟩, .PENDING, .unknown⟩

/-- Instance `b`, not yet completed (children unknown). -/
def exBpending : FaaSrFunction := ⟨⟨"b", none⟩, .PENDING, .unknown⟩

/-- Instance `b`, completed without invoking anyone. -/
def exBdone : FaaSrFunction := ⟨⟨"b", none⟩, .COMPLETED, .known []⟩

/-- Instance `a`, completed having invoked `c`. -/
def exAdone : FaaSrFunction := ⟨⟨"a", none⟩, .COMPLETED, .known ["c"]⟩

/-- A failed root instance `A`. -/
def exFailedA : FaaSrFunction := ⟨⟨"A", none⟩, .FAILED, .unknown⟩

/-- A pending instance `B`. -/
def exPendingB : FaaSrFunction := ⟨⟨"B", none⟩, .PENDING, .unknown⟩

/-- A pending instance `C`. -/
def exPendingC : FaaSrFunction := ⟨⟨"C", none⟩, .PENDING, .unknown⟩

/-- Monitor state of the failure-cascade scenario: root `A` has FAILED while
`B` and `C` are still PENDING. -/
def exCascadeState : MonitorState :=
  ⟨[exFailedA, exPendingB, exPendingC], fun _ => .PENDING, 0, 0, 0, false, false⟩

/-- An invoker instance whose completion probe raises a non-NotFound store
error. -/
def exProbeErr : FaaSrFunction := ⟨⟨"a", none⟩, .INVOKED, .storeError⟩

/-- Environment: instance `b` is invoked by `exProbeErr`. -/
def gInvErr : FaaSrFunction → List FaaSrFunction :=
  fun f => if f.function_name.base == "b" then [exProbeErr] else []

/-- Monitor state of the store-error scenario: `a` INVOKED with a raising
completion probe, `b` PENDING behind it. -/
def exStoreErrState : MonitorState :=
  ⟨[exProbeErr, ⟨⟨"b", none⟩, .PENDING, .unknown⟩],
    fun _ => .PENDING, 0, 0, 0, false, false⟩

/-- A function observed RUNNING by the current tick. -/
def exRunningG : FaaSrFunction := ⟨⟨"g", none⟩, .RUNNING, .unknown⟩

/-- Monitor state of the inactivity-timer scenario: `g` was INVOKED in the
previous snapshot and is RUNNING now, 5 inactivity seconds accumulated,
clock at 7. -/
def exTimerState : MonitorState :=
  ⟨[exRunningG], fun _ => .INVOKED, 7, 0, 5, false, false⟩

/-- Monitor state of the monotonicity scenario: `A` FAILED, `B` PENDING. -/
def exMonoState : MonitorState :=
  ⟨[exFailedA, exPendingB], fun _ => .PENDING, 0, 0, 0, false, false⟩

/-- A concrete five-line log artifact. -/
def exLog5 : List String := ["l1", "l2", "l3", "l4", "l5"]

/-- An invoker-list environment that differs from `gInvNone` exactly on
non-PENDING functions. -/
def gInvNonPending : FaaSrFunction → List FaaSrFunction :=
  fun f => if pending f.status then [] else [exAdone]

end FaaSr

namespace FaaSr

/-! ## Helper lemmas -/

/-- A final status is not pending. -/
lemma final_not_pending {s : FunctionStatus} (h : has_final_state s = true) :
    pending s = false := by
  cases s <;> simp_all [has_final_state, pending]

/-- Every status that `has_completed` accepts is final. -/
lemma has_completed_final {s : FunctionStatus} (h : has_completed s = true) :
    has_final_state s = true := by
  cases s <;> simp_all [has_completed, has_final_state]

/-- `_build_functions` seeds INVOKED exactly on instances of the entry-point
base name and PENDING everywhere else. -/
lemma build_functions_status (names : List String) (ranks : String → Nat)
    (invoke : String) (f : FaaSrFunction)
    (hf : f ∈ _build_functions names ranks invoke) :
    f.status = (if extract_function_name f.function_name == invoke then
      FunctionStatus.INVOKED else FunctionStatus.PENDING) := by
  unfold _build_functions at hf
  obtain ⟨fid, _, rfl⟩ := List.mem_map.mp hf
  by_cases h : fid.base = invoke <;>
    simp [h, set_status, has_final_state, extract_function_name]

/-- The per-function monitor loop consults the invoker environment only on
functions whose status is PENDING: two environments that agree on pending
functions produce identical loop results. -/
lemma monitorLoop_env_agree (gI1 gI2 : FaaSrFunction → List FaaSrFunction)
    (clock : Nat) (hagree : ∀ g, pending g.status = true → gI1 g = gI2 g) :
    ∀ (fns : List FaaSrFunction) (acc : TickAcc),
      monitorLoop gI1 clock fns acc = monitorLoop gI2 clock fns acc := by
  intro fns
  induction fns with
  | nil => intro acc; rfl
  | cons f0 rest ih =>
      intro acc
      by_cases hp : pending f0.status
      · simp only [monitorLoop, hp, if_pos, hagree f0 hp]
        cases _handle_pending (gI2 f0) f0 clock acc.last_change_time
            acc.seconds_since_last_change with
        | error e => rfl
        | ok v => simp only [ih]
      · simp only [monitorLoop, hp, if_neg, Bool.false_eq_true, if_false]
        simp only [ih]

/-! ## Claim theorems -/

/-- Claim C8: `object_exists` returns False exactly on a 404 from the store,
True when the head call succeeds, and raises `S3ClientError` on every other
client failure; `get_object` raises `S3ClientError` both for a missing
object (404) and for any other client failure, so NotFound is
distinguishable from other store failures and is not an error for existence
checks. -/
theorem c8_store_adapter_contract (r : S3CallResult) :
    (object_exists r = S3Outcome.ok false ↔ r = S3CallResult.clientError "404") ∧
    (∀ body, r = S3CallResult.success body → object_exists r = S3Outcome.ok true) ∧
    (∀ code, r = S3CallResult.clientError code → code ≠ "404" →
      object_exists r = S3Outcome.s3ClientError) ∧
    (∀ code, r = S3CallResult.clientError code →
      get_object r = S3Outcome.s3ClientError) ∧
    (∀ body, r = S3CallResult.success body → get_object r = S3Outcome.ok body) := by
  cases r with
  | success body => refine ⟨?_, ?_, ?_, ?_, ?_⟩ <;> simp [object_exists, get_object]
  | clientError code =>
      by_cases h : code = "404" <;>
        refine ⟨?_, ?_, ?_, ?_, ?_⟩ <;> simp_all [object_exists, get_object]
  | otherExc => refine ⟨?_, ?_, ?_, ?_, ?_⟩ <;> simp [object_exists, get_object]

/-- Witness for C8 at concrete store responses. -/
theorem c8_store_adapter_contract_witness :
    object_exists (S3CallResult.clientError "404") = S3Outcome.ok false ∧
    object_exists (S3CallResult.success "x") = S3Outcome.ok true ∧
    object_exists (S3CallResult.clientError "500") = S3Outcome.s3ClientError ∧
    get_object (S3CallResult.clientError "404") = S3Outcome.s3ClientError ∧
    get_object (S3CallResult.success "x") = S3Outcome.ok "x" :=
  ⟨(c8_store_adapter_contract (S3CallResult.clientError "404")).1.mpr rfl,
   (c8_store_adapter_contract (S3CallResult.success "x")).2.1 "x" rfl,
   (c8_store_adapter_contract (S3CallResult.clientError "500")).2.2.1 "500" rfl
     (by decide),
   (c8_store_adapter_contract (S3CallResult.clientError "404")).2.2.2.1 "404" rfl,
   (c8_store_adapter_contract (S3CallResult.success "x")).2.2.2.2 "x" rfl⟩

/-- Claim C1 counterexample: instance `c` has the two invokers `b` (not yet
completed) and `a` (completed, invoked `c`).  Although an invoker has
completed with `c` among its invoked children, the resolver examined in the
order `[b, a]` returns PENDING, not INVOKED, and examined in the order
`[a, b]` returns INVOKED — so the result does depend on the examination
order when an undecided invoker is present. -/
theorem c1_counterexample :
    _check_invocation_status [exBpending, exAdone] exC =
      some InvocationStatus.PENDING ∧
    _check_invocation_status [exAdone, exBpending] exC =
      some InvocationStatus.INVOKED := by
  decide

/-- Claim C1 as amended: for a PENDING instance X whose invoker instances
have ALL completed (invoked-children known), if any invoker reports base(X)
among its invoked children then the resolver returns INVOKED — in
particular a completed invoker that did not invoke X makes the resolver
continue to the next invoker rather than decide NOT_INVOKED, and since the
statement holds for every list of invoker instances satisfying the
(permutation-invariant) hypotheses, the result does not depend on the order
in which invokers and ranks are examined. -/
theorem c1_resolver_any_invoked_parent_wins
    (invokers : List FaaSrFunction) (f : FaaSrFunction)
    (hall : ∀ g ∈ invokers, g.invocations ≠ Invocations.unknown ∧
      g.invocations ≠ Invocations.storeError)
    (hsome : ∃ g ∈ invokers,
      invokedChild g (extract_function_name f.function_name) = true) :
    _check_invocation_status invokers f = some InvocationStatus.INVOKED := by
  induction invokers with
  | nil => simp at hsome
  | cons inv rest ih =>
      obtain ⟨h1, h2⟩ := hall inv (List.mem_cons_self _ _)
      match hinv : inv.invocations with
      | .unknown => exact absurd hinv h1
      | .storeError => exact absurd hinv h2
      | .known ch =>
          by_cases hmem : extract_function_name f.function_name ∈ ch
          · simp [_check_invocation_status, _get_invocation_status, hinv, hmem,
              invocationTruthy]
          · have hrest : _check_invocation_status rest f =
                some InvocationStatus.INVOKED := by
              apply ih
              · intro g hg; exact hall g (List.mem_cons_of_mem _ hg)
              · rcases hsome with ⟨g, hg, hgc⟩
                rcases List.mem_cons.mp hg with rfl | hgrest
                · exfalso
                  rw [invokedChild, hinv] at hgc
                  exact hmem (of_decide_eq_true hgc)
                · exact ⟨g, hgrest, hgc⟩
            simp [_check_invocation_status, _get_invocation_status, hinv, hmem,
              invocationTruthy, hrest]

/-- Witness for the amended C1: both invokers of `c` completed, `b` without
invoking `c` and `a` having invoked it; the resolver passes over `b` and
returns INVOKED. -/
theorem c1_resolver_any_invoked_parent_wins_witness :
    _check_invocation_status [exBdone, exAdone] exC =
      some InvocationStatus.INVOKED :=
  c1_resolver_any_invoked_parent_wins [exBdone, exAdone] exC (by decide)
    (by decide)

/-- Claim C10: if the stop signal is set while the remote log artifact has
never been observed (started flag still false), the polling loop keeps
probing for existence for every number of further poll cycles: the state is
unchanged (complete flag never set) and no event — in particular no
LOG_COMPLETE — is ever fired. -/
theorem c10_stop_before_started_keeps_probing
    (trace : List (Bool × Option (List String))) (logs0 : List String)
    (habs : ∀ cyc ∈ trace, cyc.2 = (none : Option (List String))) :
    runLogger trace ⟨logs0, false, false⟩ = some (⟨logs0, false, false⟩, []) := by
  induction trace with
  | nil => rfl
  | cons cyc rest ih =>
      have hc : cyc.2 = none := habs cyc (List.mem_cons_self _ _)
      have hrest : ∀ c ∈ rest, c.2 = (none : Option (List String)) :=
        fun c hcm => habs c (List.mem_cons_of_mem _ hcm)
      simp [runLogger, loggerStep, hc, ih hrest]

/-- Witness for C10: three poll cycles with the stop signal set and the
artifact absent leave the logger untouched and fire nothing. -/
theorem c10_stop_before_started_keeps_probing_witness :
    runLogger [(true, none), (true, none), (true, none)] ⟨[], false, false⟩ =
      some (⟨[], false, false⟩, []) :=
  c10_stop_before_started_keeps_probing _ [] (by decide)

/-- Claim C9 counterexample: in the forward graph a→c, b→c the base node `b`
has no invokers (its reverse-graph entry is empty), yet with entry point `a`
the registry seeds the instance of `b` PENDING, not INVOKED — only the
entry-point node is pre-seeded INVOKED. -/
theorem c9_counterexample :
    _build_reverse_adjacency_graph [("a", ["c"]), ("b", ["c"])] "b" = ∅ ∧
    (_build_functions ["a", "b", "c"] (fun _ => 1) "a")[1]? =
      some ⟨⟨"b", none⟩, .PENDING, .unknown⟩ ∧
    _check_invocation_status [] exBpending = some InvocationStatus.NOT_INVOKED := by
  decide

/-- Claim C9 as amended: at registry construction exactly the instances of
the entry-point base node (`FunctionInvoke`) are pre-seeded INVOKED and all
other instances — including those of a non-entry-point node with no
invokers — are seeded PENDING; and the monitor loop submits only PENDING
instances to the invocation status resolver (its result does not consult
the invoker environment on any non-PENDING function), so the pre-seeded
INVOKED instances never enter the resolver. -/
theorem c9_entrypoint_seeding :
    (∀ (names : List String) (ranks : String → Nat) (invoke : String)
        (f : FaaSrFunction), f ∈ _build_functions names ranks invoke →
      f.status = (if extract_function_name f.function_name == invoke then
        FunctionStatus.INVOKED else FunctionStatus.PENDING)) ∧
    (∀ (gI1 gI2 : FaaSrFunction → List FaaSrFunction) (clock : Nat)
        (fns : List FaaSrFunction) (acc : TickAcc),
      (∀ g, pending g.status = true → gI1 g = gI2 g) →
      monitorLoop gI1 clock fns acc = monitorLoop gI2 clock fns acc) :=
  ⟨build_functions_status,
   fun gI1 gI2 clock fns acc hagree =>
     monitorLoop_env_agree gI1 gI2 clock hagree fns acc⟩

/-- Witness for the amended C9: the entry-point instance of the a→c, b→c
registry is seeded INVOKED, and the loop result over it is independent of
the invoker environment. -/
theorem c9_entrypoint_seeding_witness :
    ((⟨⟨"a", none⟩, .INVOKED, .unknown⟩ : FaaSrFunction) ∈
      _build_functions ["a", "b", "c"] (fun _ => 1) "a") ∧
    (⟨⟨"a", none⟩, .INVOKED, .unknown⟩ : FaaSrFunction).status =
      (if extract_function_name (⟨⟨"a", none⟩, .INVOKED, .unknown⟩ :
          FaaSrFunction).function_name == "a" then
        FunctionStatus.INVOKED else FunctionStatus.PENDING) ∧
    monitorLoop gInvNone 0 [exRunningG] ⟨fun _ => .PENDING, 0, 0, false, none⟩ =
      monitorLoop gInvNonPending 0 [exRunningG]
        ⟨fun _ => .PENDING, 0, 0, false, none⟩ :=
  ⟨by decide,
   c9_entrypoint_seeding.1 ["a", "b", "c"] (fun _ => 1) "a" _ (by decide),
   c9_entrypoint_seeding.2 gInvNone gInvNonPending 0 [exRunningG] _
     (fun g hg => by simp [gInvNone, gInvNonPending, hg])⟩

end FaaSr
namespace FaaSr

lemma reverse_inner_mem (inv : String) (fns : List String) :
    ∀ (g : String → Finset String) (u v : String),
      u ∈ fns.foldl (fun g2 fn => Function.update g2 fn (insert inv (g2 fn))) g v ↔
        u ∈ g v ∨ (u = inv ∧ v ∈ fns) := by
  induction fns with
  | nil => intro g u v; simp
  | cons fn rest ih =>
      intro g u v
      rw [List.foldl_cons, ih]
      by_cases hv : v = fn
      · subst hv
        simp [Function.update_same, List.mem_cons]
        tauto
      · simp [Function.update_noteq hv, List.mem_cons, hv]

lemma reverse_outer_mem :
    ∀ (adj : List (String × List String)) (g : String → Finset String)
      (u v : String),
      u ∈ adj.foldl
        (fun g0 p =>
          p.2.foldl (fun g2 fn => Function.update g2 fn (insert p.1 (g2 fn))) g0)
        g v ↔
      u ∈ g v ∨ ∃ p ∈ adj, p.1 = u ∧ v ∈ p.2 := by
  intro adj
  induction adj with
  | nil => intro g u v; simp
  | cons p rest ih =>
      intro g u v
      rw [List.foldl_cons, ih, reverse_inner_mem]
      constructor
      · rintro ((h | ⟨rfl, hv⟩) | ⟨q, hq, hq1, hq2⟩)
        · exact Or.inl h
        · exact Or.inr ⟨p, List.mem_cons_self _ _, rfl, hv⟩
        · exact Or.inr ⟨q, List.mem_cons_of_mem _ hq, hq1, hq2⟩
      · rintro (h | ⟨q, hq, hq1, hq2⟩)
        · exact Or.inl (Or.inl h)
        · rcases List.mem_cons.mp hq with rfl | hqrest
          · exact Or.inl (Or.inr ⟨hq1.symm, hq2⟩)
          · exact Or.inr ⟨q, hqrest, hq1, hq2⟩

lemma forwardLookup_mem (adj : List (String × List String))
    (hnd : (adj.map Prod.fst).Nodup) (u v : String) :
    v ∈ forwardLookup adj u ↔ ∃ p ∈ adj, p.1 = u ∧ v ∈ p.2 := by
  induction adj with
  | nil => simp [forwardLookup]
  | cons p rest ih =>
      rw [List.map_cons, List.nodup_cons] at hnd
      obtain ⟨hp, hrest⟩ := hnd
      by_cases h : p.1 = u
      · have hb : (p.1 == u) = true := beq_iff_eq.mpr h
        have hl : forwardLookup (p :: rest) u = p.2 := by
          simp [forwardLookup, List.find?, hb]
        rw [hl]
        constructor
        · intro hv; exact ⟨p, List.mem_cons_self _ _, h, hv⟩
        · rintro ⟨q, hq, hq1, hq2⟩
          rcases List.mem_cons.mp hq with rfl | hqrest
          · exact hq2
          · exact absurd (h ▸ hq1 ▸ List.mem_map_of_mem Prod.fst hqrest) hp
      · have hb : (p.1 == u) = false := by simp [h]
        have hl : forwardLookup (p :: rest) u = forwardLookup rest u := by
          simp [forwardLookup, List.find?, hb]
        rw [hl, ih hrest]
        constructor
        · rintro ⟨q, hq, hq1, hq2⟩; exact ⟨q, List.mem_cons_of_mem _ hq, hq1, hq2⟩
        · rintro ⟨q, hq, hq1, hq2⟩
          rcases List.mem_cons.mp hq with rfl | hqrest
          · exact absurd hq1 h
          · exact ⟨q, hqrest, hq1, hq2⟩

theorem c7_reverse_graph_exact_inverse (adj : List (String × List String))
    (hnd : (adj.map Prod.fst).Nodup) (u v : String) :
    u ∈ _build_reverse_adjacency_graph adj v ↔ v ∈ forwardLookup adj u := by
  rw [forwardLookup_mem adj hnd, _build_reverse_adjacency_graph, reverse_outer_mem]
  simp

theorem c7_reverse_graph_exact_inverse_witness :
    ((([("a", ["c"]), ("b", ["c"])] : List (String × List String)).map
      Prod.fst).Nodup) ∧
    "a" ∈ _build_reverse_adjacency_graph [("a", ["c"]), ("b", ["c"])] "c" :=
  ⟨by decide,
   (c7_reverse_graph_exact_inverse _ (by decide) "a" "c").mpr (by decide)⟩

end FaaSr
namespace FaaSr

/-- Once the complete flag is set, the polling loop body never runs again. -/
lemma runLogger_of_complete (t : List (Bool × Option (List String)))
    (s : LoggerState) (h : s.logs_complete = true) :
    runLogger t s = some (s, []) := by
  cases t with
  | nil => rfl
  | cons cyc rest => simp [runLogger, h]

/-- Poll traces compose: running a concatenated trace is running the first
part and then the second from the reached state, concatenating events. -/
lemma runLogger_append (t1 t2 : List (Bool × Option (List String)))
    (s : LoggerState) :
    runLogger (t1 ++ t2) s = (runLogger t1 s).bind
      (fun r1 => (runLogger t2 r1.1).map (fun r2 => (r2.1, r1.2 ++ r2.2))) := by
  induction t1 generalizing s with
  | nil =>
      simp only [List.nil_append, runLogger]
      cases h : runLogger t2 s with
      | none => simp [h]
      | some r => simp [h]
  | cons cyc rest ih =>
      by_cases hc : s.logs_complete
      · rw [List.cons_append]
        simp [runLogger, hc, runLogger_of_complete t2 s hc]
      · rw [List.cons_append]
        simp only [runLogger, hc, Bool.false_eq_true, if_false]
        cases hs : loggerStep cyc.1 cyc.2 s with
        | none => simp
        | some pr =>
            simp only [ih]
            cases h2 : runLogger rest pr.1 with
            | none => simp
            | some r2 =>
                cases h3 : runLogger t2 r2.1 with
                | none => simp [h3]
                | some r3 => simp [h3, List.append_assoc]

/-- While the artifact is absent and the logger has not started, polling
leaves the state unchanged and fires no event. -/
lemma runLogger_absent_not_started (t : List (Bool × Option (List String)))
    (s : LoggerState) (h1 : s.logs_started = false) (h2 : s.logs_complete = false)
    (habs : ∀ cyc ∈ t, cyc.2 = (none : Option (List String))) :
    runLogger t s = some (s, []) := by
  induction t with
  | nil => rfl
  | cons cyc rest ih =>
      have hcy : cyc.2 = none := habs cyc (List.mem_cons_self _ _)
      have hrest : ∀ c ∈ rest, c.2 = (none : Option (List String)) :=
        fun c hcm => habs c (List.mem_cons_of_mem _ hcm)
      simp [runLogger, loggerStep, h1, h2, hcy, ih hrest]

/-- Polls of an unchanged artifact whose lines are already buffered leave
the state unchanged and fire no event. -/
lemma runLogger_stable (n : Nat) (l : List String) (s : LoggerState)
    (h1 : s.logs_started = true) (h2 : s.logs_complete = false)
    (hl : s.logs = l) :
    runLogger (List.replicate n (false, some l)) s = some (s, []) := by
  induction n with
  | zero => rfl
  | succ n ih =>
      simp [List.replicate_succ, runLogger, h2, loggerStep, h1, hl,
        List.drop_length, ih]

/-- From a fresh logger, at least two polls of a stable nonempty artifact
fire exactly one LOG_CREATED and one LOG_UPDATED and buffer its lines. -/
lemma runLogger_create_fetch (b : Nat) (l : List String) (hl : l ≠ []) :
    runLogger (List.replicate (b + 2) (false, some l)) ⟨[], false, false⟩ =
      some (⟨l, true, false⟩, [LogEvent.LOG_CREATED, LogEvent.LOG_UPDATED]) := by
  have h1 : loggerStep false (some l) ⟨[], false, false⟩ =
      some (⟨[], true, false⟩, [LogEvent.LOG_CREATED]) := rfl
  have h2 : loggerStep false (some l) ⟨[], true, false⟩ =
      some (⟨l, true, false⟩, [LogEvent.LOG_UPDATED]) := by
    simp [loggerStep, hl]
  have h3 : (b + 2) = (b + 1) + 1 := rfl
  rw [h3, List.replicate_succ, List.replicate_succ]
  simp [runLogger, h1, h2, runLogger_stable b l ⟨l, true, false⟩ rfl rfl rfl]

/-- A started logger whose buffer is a proper front segment of the artifact
fires exactly one LOG_UPDATED for the new suffix and ends with the full
artifact buffered. -/
lemma runLogger_grow (c : Nat) (lcur lnew : List String)
    (hpre : lcur = lnew.take lcur.length) (hlt : lcur.length < lnew.length) :
    runLogger (List.replicate (c + 1) (false, some lnew)) ⟨lcur, true, false⟩ =
      some (⟨lnew, true, false⟩, [LogEvent.LOG_UPDATED]) := by
  have hd : lnew.drop lcur.length ≠ [] := by
    intro h
    have hlen := congrArg List.length h
    simp [List.length_drop] at hlen
    omega
  have hcat : lcur ++ lnew.drop lcur.length = lnew := by
    nth_rewrite 1 [hpre]
    exact List.take_append_drop _ _
  have hstep : loggerStep false (some lnew) ⟨lcur, true, false⟩ =
      some (⟨lnew, true, false⟩, [LogEvent.LOG_UPDATED]) := by
    simp [loggerStep, hd, hcat]
  rw [List.replicate_succ]
  simp [runLogger, hstep, runLogger_stable c lnew ⟨lnew, true, false⟩ rfl rfl rfl]

/-- With the stop signal set and no new lines, the first poll fires exactly
one LOG_COMPLETE and latches completion; later polls do nothing. -/
lemma runLogger_finish (d : Nat) (l : List String) :
    runLogger (List.replicate (d + 1) (true, some l)) ⟨l, true, false⟩ =
      some (⟨l, true, true⟩, [LogEvent.LOG_COMPLETE]) := by
  have hstep : loggerStep true (some l) ⟨l, true, false⟩ =
      some (⟨l, true, true⟩, [LogEvent.LOG_COMPLETE]) := by
    simp [loggerStep, List.drop_length]
  rw [List.replicate_succ]
  simp [runLogger, hstep,
    runLogger_of_complete (List.replicate d (true, some l)) ⟨l, true, true⟩ rfl]

/-- Claim C6: over an artifact that grows from absent (a polls, at least
zero) to 2 lines (b polls, at least two so the creation poll and a fetch
poll both happen) to 5 lines (c polls, at least one) and is then stopped
while stable (d polls, at least one), the callbacks receive exactly one
LOG_CREATED, then one LOG_UPDATED for the 2-line delta, then one
LOG_UPDATED for the 3-line delta, and exactly one LOG_COMPLETE, which fires
only after the stop signal is set and a poll observed zero new lines.  The
second and third conjuncts pin the buffer down after each phase: it always
equals the consumed front segment of the fetched artifact (first the 2
taken lines, then all 5 lines), so lines are never reordered or
duplicated. -/
theorem c6_log_monitor_ordering (l5 : List String) (h5 : l5.length = 5)
    (a b c d : Nat) (hb : 2 ≤ b) (hc : 1 ≤ c) (hd : 1 ≤ d) :
    runLogger
      (List.replicate a ((false : Bool), (none : Option (List String))) ++
        List.replicate b (false, some (l5.take 2)) ++
        List.replicate c (false, some l5) ++
        List.replicate d (true, some l5))
      ⟨[], false, false⟩ =
      some (⟨l5, true, true⟩,
        [LogEvent.LOG_CREATED, LogEvent.LOG_UPDATED, LogEvent.LOG_UPDATED,
          LogEvent.LOG_COMPLETE]) ∧
    runLogger
      (List.replicate a ((false : Bool), (none : Option (List String))) ++
        List.replicate b (false, some (l5.take 2)))
      ⟨[], false, false⟩ =
      some (⟨l5.take 2, true, false⟩,
        [LogEvent.LOG_CREATED, LogEvent.LOG_UPDATED]) ∧
    runLogger
      (List.replicate a ((false : Bool), (none : Option (List String))) ++
        List.replicate b (false, some (l5.take 2)) ++
        List.replicate c (false, some l5))
      ⟨[], false, false⟩ =
      some (⟨l5, true, false⟩,
        [LogEvent.LOG_CREATED, LogEvent.LOG_UPDATED, LogEvent.LOG_UPDATED]) := by
  obtain ⟨b2, rfl⟩ : ∃ k, b = k + 2 := ⟨b - 2, by omega⟩
  obtain ⟨c1, rfl⟩ : ∃ k, c = k + 1 := ⟨c - 1, by omega⟩
  obtain ⟨d1, rfl⟩ : ∃ k, d = k + 1 := ⟨d - 1, by omega⟩
  have hl2len : (l5.take 2).length = 2 := by
    simp [List.length_take, h5]
  have hl2ne : l5.take 2 ≠ [] := by
    intro h
    rw [h] at hl2len
    simp at hl2len
  have habs : ∀ cyc ∈ List.replicate a
      ((false : Bool), (none : Option (List String))), cyc.2 =
        (none : Option (List String)) := by
    intro cyc hcy
    have := List.eq_of_mem_replicate hcy
    rw [this]
  have r1 := runLogger_absent_not_started
    (List.replicate a ((false : Bool), (none : Option (List String))))
    ⟨[], false, false⟩ rfl rfl habs
  have r2 := runLogger_create_fetch b2 (l5.take 2) hl2ne
  have r12 : runLogger
      (List.replicate a ((false : Bool), (none : Option (List String))) ++
        List.replicate (b2 + 2) (false, some (l5.take 2))) ⟨[], false, false⟩ =
      some (⟨l5.take 2, true, false⟩,
        [LogEvent.LOG_CREATED, LogEvent.LOG_UPDATED]) := by
    rw [runLogger_append, r1]
    simp [r2]
  have r3 := runLogger_grow c1 (l5.take 2) l5 (by rw [hl2len]) (by omega)
  have r123 : runLogger
      (List.replicate a ((false : Bool), (none : Option (List String))) ++
        List.replicate (b2 + 2) (false, some (l5.take 2)) ++
        List.replicate (c1 + 1) (false, some l5)) ⟨[], false, false⟩ =
      some (⟨l5, true, false⟩,
        [LogEvent.LOG_CREATED, LogEvent.LOG_UPDATED, LogEvent.LOG_UPDATED]) := by
    rw [runLogger_append, r12]
    simp [r3]
  have r4 := runLogger_finish d1 l5
  refine ⟨?_, r12, r123⟩
  rw [runLogger_append, r123]
  simp [r4]

/-- Witness for C6 at a concrete five-line artifact and minimal phase
lengths. -/
theorem c6_log_monitor_ordering_witness :
    runLogger
      (List.replicate 1 ((false : Bool), (none : Option (List String))) ++
        List.replicate 2 (false, some (exLog5.take 2)) ++
        List.replicate 1 (false, some exLog5) ++
        List.replicate 1 (true, some exLog5))
      ⟨[], false, false⟩ =
      some (⟨exLog5, true, true⟩,
        [LogEvent.LOG_CREATED, LogEvent.LOG_UPDATED, LogEvent.LOG_UPDATED,
          LogEvent.LOG_COMPLETE]) :=
  (c6_log_monitor_ordering exLog5 (by decide) 1 2 1 1 (by decide) (by decide)
    (by decide)).1

end FaaSr
namespace FaaSr

/-- A pending status is literally PENDING. -/
lemma pending_eq_true {s : FunctionStatus} (h : pending s = true) :
    s = FunctionStatus.PENDING := by
  cases s <;> simp_all [pending]

/-- The per-function loop never changes a function whose status is final:
final implies not pending, so `_handle_pending` is skipped, and nothing else
in the loop writes a status. -/
lemma monitorLoop_preserves_final (gI : FaaSrFunction → List FaaSrFunction)
    (clock : Nat) :
    ∀ (fns : List FaaSrFunction) (acc : TickAcc) (i : Nat) (f : FaaSrFunction),
      fns[i]? = some f → has_final_state f.status = true →
      (monitorLoop gI clock fns acc).1[i]? = some f := by
  intro fns
  induction fns with
  | nil => intro acc i f h _; simp at h
  | cons f0 rest ih =>
      intro acc i f hf hfin
      match i with
      | 0 =>
          have hef : f0 = f := by simpa using hf
          rw [← hef] at hfin ⊢
          have hp : pending f0.status = false := final_not_pending hfin
          by_cases hfl : failed f0.status <;>
            simp [monitorLoop, hp, hfl]
      | i + 1 =>
          rw [List.getElem?_cons_succ] at hf
          by_cases hp : pending f0.status
          · cases hh : _handle_pending (gI f0) f0 clock acc.last_change_time
                acc.seconds_since_last_change with
            | error e => simp [monitorLoop, hp, hh]; exact hf
            | ok v =>
                obtain ⟨f2, lct, sslc⟩ := v
                by_cases hfl : failed f2.status
                · simp [monitorLoop, hp, hh, hfl]; exact hf
                · simp [monitorLoop, hp, hh, hfl]; exact ih _ i f hf hfin
          · by_cases hfl : failed f0.status
            · simp [monitorLoop, hp, hfl]; exact hf
            · simp [monitorLoop, hp, hfl]; exact ih _ i f hf hfin

/-- The failure cascade never changes a function whose status is final: for
a final status outside COMPLETED/NOT_INVOKED the `set_status(SKIPPED)` call
is rejected without mutating, and the raise leaves the rest untouched. -/
lemma cascade_preserves_final :
    ∀ (fns : List FaaSrFunction) (i : Nat) (f : FaaSrFunction),
      fns[i]? = some f → has_final_state f.status = true →
      (_cascade_failure fns).1[i]? = some f := by
  intro fns
  induction fns with
  | nil => intro i f h _; simp at h
  | cons f0 rest ih =>
      intro i f hf hfin
      by_cases hc : has_completed f0.status
      · match i with
        | 0 =>
            have hef : f0 = f := by simpa using hf
            rw [← hef]
            simp [_cascade_failure, hc]
        | i + 1 =>
            rw [List.getElem?_cons_succ] at hf
            simp [_cascade_failure, hc]
            exact ih i f hf hfin
      · by_cases hfin0 : has_final_state f0.status
        · simp [_cascade_failure, hc, set_status, hfin0]
          exact hf
        · match i with
          | 0 =>
              have hef : f0 = f := by simpa using hf
              rw [← hef] at hfin
              exact absurd hfin hfin0
          | i + 1 =>
              rw [List.getElem?_cons_succ] at hf
              simp [_cascade_failure, hc, set_status, hfin0]
              exact ih i f hf hfin

/-- Finalization only writes to non-final statuses. -/
lemma finish_preserves_final (s : MonitorState) (i : Nat) (f : FaaSrFunction)
    (hf : s.functions[i]? = some f) (hfin : has_final_state f.status = true) :
    (_finish_monitoring s).functions[i]? = some f := by
  simp [_finish_monitoring, List.getElem?_map, hf, hfin]

/-- One reconciliation tick, failure cascade included, preserves every
function whose status is final. -/
lemma tick_preserves_final (gI : FaaSrFunction → List FaaSrFunction)
    (s : MonitorState) (i : Nat) (f : FaaSrFunction)
    (hf : s.functions[i]? = some f) (hfin : has_final_state f.status = true) :
    ((_monitor_workflow_execution gI s).1).functions[i]? = some f := by
  rcases hr : monitorLoop gI s.clock s.functions
      ⟨s.prev, s.last_change_time, s.seconds_since_last_change, false, none⟩
    with ⟨fns2, acc2⟩
  have h1 : fns2[i]? = some f := by
    have h := monitorLoop_preserves_final gI s.clock s.functions
      ⟨s.prev, s.last_change_time, s.seconds_since_last_change, false, none⟩
      i f hf hfin
    rw [hr] at h
    exact h
  have h2 : (_cascade_failure fns2).1[i]? = some f :=
    cascade_preserves_final fns2 i f h1 hfin
  cases hexc : acc2.exc with
  | some e => simp [_monitor_workflow_execution, hr, hexc, h1]
  | none =>
      by_cases hall : _all_functions_completed fns2
      · simp [_monitor_workflow_execution, hr, hexc, hall, h1]
      · by_cases hwf : acc2.workflow_failed
        · cases hcc : (_cascade_failure fns2).2 with
          | some e =>
              simp [_monitor_workflow_execution, hr, hexc, hall, hwf, hcc, h2]
          | none =>
              simp [_monitor_workflow_execution, hr, hexc, hall, hwf, hcc, h2]
        · simp [_monitor_workflow_execution, hr, hexc, hall, hwf, h1]

/-- The whole monitoring loop, finalization included, preserves every
function whose status is final, whatever the fuel and however the run
exits. -/
lemma while_preserves_final (gI : FaaSrFunction → List FaaSrFunction)
    (timeout check_interval : Nat) :
    ∀ (fuel : Nat) (s : MonitorState) (i : Nat) (f : FaaSrFunction),
      s.functions[i]? = some f → has_final_state f.status = true →
      ((_monitoring_while gI timeout check_interval fuel s).1).functions[i]? =
        some f := by
  intro fuel
  induction fuel with
  | zero => intro s i f hf _; exact hf
  | succ fuel ih =>
      intro s i f hf hfin
      by_cases hstop : (_did_timeout timeout s || s.shutdown_requested) = true
      · simp only [_monitoring_while, hstop, if_pos]
        exact finish_preserves_final s i f hf hfin
      · rcases htick : _monitor_workflow_execution gI s with ⟨s1, e⟩
        have h1 : s1.functions[i]? = some f := by
          have h := tick_preserves_final gI s i f hf hfin
          rw [htick] at h
          exact h
        cases e with
        | none =>
            simp only [_monitoring_while, hstop, if_neg, htick]
            exact ih _ i f (by simpa [_increment_timer] using h1) hfin
        | some exc =>
            cases exc with
            | stopMonitoring =>
                simp only [_monitoring_while, hstop, if_neg, htick]
                exact finish_preserves_final s1 i f h1 hfin
            | s3ClientError =>
                simp only [_monitoring_while, hstop, if_neg, htick]
                exact h1
            | illegalTransition =>
                simp only [_monitoring_while, hstop, if_neg, htick]
                exact h1

/-- Claim C3: once an instance has a final status (COMPLETED, FAILED,
NOT_INVOKED, SKIPPED or TIMEOUT), no later monitor tick — the failure
cascade and the finalization step on loop exit included — changes it: after
any monitor run the instance at the same position is unchanged.  In
particular an instance that became FAILED still has status FAILED in the
final snapshot after the cascade (the cascade attempt to overwrite it is
rejected by `set_status` without mutating). -/
theorem c3_final_status_monotone (gI : FaaSrFunction → List FaaSrFunction)
    (timeout check_interval fuel : Nat) (s : MonitorState) (i : Nat)
    (f : FaaSrFunction) (hf : s.functions[i]? = some f)
    (hfin : has_final_state f.status = true) :
    ((_start_monitoring gI timeout check_interval fuel s).1).functions[i]? =
      some f :=
  while_preserves_final gI timeout check_interval fuel (_reset_timer s) i f
    (by simpa [_reset_timer] using hf) hfin

/-- Witness for C3: a FAILED instance ahead of a PENDING one survives a full
monitor run, cascade included, still FAILED. -/
theorem c3_final_status_monotone_witness :
    exMonoState.functions[0]? = some exFailedA ∧
    has_final_state exFailedA.status = true ∧
    ((_start_monitoring gInvNone 100 1 3 exMonoState).1).functions[0]? =
      some exFailedA :=
  ⟨by decide, by decide,
   c3_final_status_monotone gInvNone 100 1 3 exMonoState 0 exFailedA
     (by decide) (by decide)⟩

/-- Claim C2 (code bug): when a non-NotFound store error (`S3ClientError`)
is raised inside a reconciliation tick, the monitoring loop DOES crash: the
only exception `_start_monitoring` catches is `StopMonitoring`, so the
error escapes the thread, the tick is not retried, `_finish_monitoring`
never runs and the monitoring-complete flag stays false.  Evaluated here at
a concrete run whose pending function has an invoker with a raising
completion probe. -/
theorem c2_store_error_crashes_monitor :
    (_start_monitoring gInvErr 100 1 5 exStoreErrState).2 =
      RunExit.crashed RunnerExc.s3ClientError ∧
    (_start_monitoring gInvErr 100 1 5 exStoreErrState).1.monitoring_complete =
      false ∧
    (_start_monitoring gInvErr 100 1 5 exStoreErrState).1.functions.map
      (fun f => f.status) = [.INVOKED, .PENDING] := by
  decide

/-- Claim C4 (code bug): the cascade guard is `has_completed`
(COMPLETED/NOT_INVOKED), not `has_final_state`, so on a tick with a FAILED
instance the cascade itself calls `set_status(SKIPPED)` on that already
final FAILED instance; under the set_status contract (spec sections 4.1 and
7) this is a fatal illegal transition.  At the concrete state A=FAILED,
B=C=PENDING the tick aborts with `illegalTransition` and neither B nor C is
ever marked SKIPPED, against the claimed clean cascade-and-stop. -/
theorem c4_cascade_hits_failed_instance :
    (_monitor_workflow_execution gInvNone exCascadeState).2 =
      some RunnerExc.illegalTransition ∧
    (_monitor_workflow_execution gInvNone exCascadeState).1.functions.map
      (fun f => f.status) = [.FAILED, .PENDING, .PENDING] := by
  decide

/-- Claim C5 counterexample: a tick that observes a status change that is
not a resolver decision (prev snapshot INVOKED, current status RUNNING —
the change is recorded in the snapshot) does NOT reset the inactivity
timer: seconds-since-last-change stays 5 and the last-change time stays 0
although the clock is 7, refuting reset on any status change. -/
theorem c5_counterexample :
    exTimerState.prev exRunningG.function_name = FunctionStatus.INVOKED ∧
    (_monitor_workflow_execution gInvNone exTimerState).1.prev
      exRunningG.function_name = FunctionStatus.RUNNING ∧
    (_monitor_workflow_execution gInvNone exTimerState).2 = none ∧
    (_monitor_workflow_execution gInvNone
      exTimerState).1.seconds_since_last_change = 5 ∧
    (_monitor_workflow_execution gInvNone exTimerState).1.last_change_time = 0 ∧
    exTimerState.clock = 7 := by
  decide

end FaaSr
namespace FaaSr

/-- Timer behaviour of the per-function loop: either the two timer fields
pass through unchanged, or they were reset (last-change time set to the
clock, seconds zeroed) and then some PENDING function in the list has a
decisive (INVOKED or NOT_INVOKED) resolver result — the only code path that
calls `_reset_timer` inside a tick. -/
lemma monitorLoop_timer (gI : FaaSrFunction → List FaaSrFunction) (clock : Nat) :
    ∀ (fns : List FaaSrFunction) (acc : TickAcc),
      ((monitorLoop gI clock fns acc).2.last_change_time = acc.last_change_time ∧
        (monitorLoop gI clock fns acc).2.seconds_since_last_change =
          acc.seconds_since_last_change) ∨
      ((monitorLoop gI clock fns acc).2.last_change_time = clock ∧
        (monitorLoop gI clock fns acc).2.seconds_since_last_change = 0 ∧
        ∃ f ∈ fns, pending f.status = true ∧
          (_check_invocation_status (gI f) f = some InvocationStatus.INVOKED ∨
            _check_invocation_status (gI f) f = some InvocationStatus.NOT_INVOKED)) := by
  intro fns
  induction fns with
  | nil => intro acc; left; exact ⟨rfl, rfl⟩
  | cons f0 rest ih =>
      intro acc
      by_cases hp : pending f0.status
      · have hs0 : f0.status = FunctionStatus.PENDING := pending_eq_true hp
        cases hchk : _check_invocation_status (gI f0) f0 with
        | none =>
            have hstep : monitorLoop gI clock (f0 :: rest) acc =
                (f0 :: rest,
                  { acc with exc := some RunnerExc.s3ClientError }) := by
              simp [monitorLoop, hp, _handle_pending, hchk]
            rw [hstep]
            left
            exact ⟨rfl, rfl⟩
        | some st =>
            cases st with
            | PENDING =>
                by_cases hprev : acc.prev f0.function_name =
                    FunctionStatus.PENDING
                · have hstep : monitorLoop gI clock (f0 :: rest) acc =
                      (f0 :: (monitorLoop gI clock rest
                          ⟨acc.prev, acc.last_change_time,
                            acc.seconds_since_last_change, acc.workflow_failed,
                            acc.exc⟩).1,
                        (monitorLoop gI clock rest
                          ⟨acc.prev, acc.last_change_time,
                            acc.seconds_since_last_change, acc.workflow_failed,
                            acc.exc⟩).2) := by
                    simp [monitorLoop, hp, _handle_pending, hchk, hs0, failed,
                      hprev]
                  rw [hstep]
                  rcases ih ⟨acc.prev, acc.last_change_time,
                      acc.seconds_since_last_change, acc.workflow_failed,
                      acc.exc⟩ with ⟨h1, h2⟩ | ⟨h1, h2, g, hg, hgp, hgd⟩
                  · left; exact ⟨h1, h2⟩
                  · right
                    exact ⟨h1, h2, g, List.mem_cons_of_mem _ hg, hgp, hgd⟩
                · have hstep : monitorLoop gI clock (f0 :: rest) acc =
                      (f0 :: (monitorLoop gI clock rest
                          ⟨Function.update acc.prev f0.function_name
                              FunctionStatus.PENDING, acc.last_change_time,
                            acc.seconds_since_last_change, acc.workflow_failed,
                            acc.exc⟩).1,
                        (monitorLoop gI clock rest
                          ⟨Function.update acc.prev f0.function_name
                              FunctionStatus.PENDING, acc.last_change_time,
                            acc.seconds_since_last_change, acc.workflow_failed,
                            acc.exc⟩).2) := by
                    simp [monitorLoop, hp, _handle_pending, hchk, hs0, failed,
                      hprev]
                  rw [hstep]
                  rcases ih ⟨Function.update acc.prev f0.function_name
                      FunctionStatus.PENDING, acc.last_change_time,
                      acc.seconds_since_last_change, acc.workflow_failed,
                      acc.exc⟩ with ⟨h1, h2⟩ | ⟨h1, h2, g, hg, hgp, hgd⟩
                  · left; exact ⟨h1, h2⟩
                  · right
                    exact ⟨h1, h2, g, List.mem_cons_of_mem _ hg, hgp, hgd⟩
            | INVOKED =>
                by_cases hprev : acc.prev f0.function_name =
                    FunctionStatus.INVOKED
                · have hstep : monitorLoop gI clock (f0 :: rest) acc =
                      (({ f0 with status := FunctionStatus.INVOKED } :
                          FaaSrFunction) :: (monitorLoop gI clock rest
                          ⟨acc.prev, clock, 0, acc.workflow_failed,
                            acc.exc⟩).1,
                        (monitorLoop gI clock rest
                          ⟨acc.prev, clock, 0, acc.workflow_failed,
                            acc.exc⟩).2) := by
                    simp [monitorLoop, hp, _handle_pending, hchk, hs0, failed,
                      pending, set_status, has_final_state, hprev]
                  rw [hstep]
                  rcases ih ⟨acc.prev, clock, 0, acc.workflow_failed, acc.exc⟩
                    with ⟨h1, h2⟩ | ⟨h1, h2, g, hg, hgp, hgd⟩
                  · right
                    exact ⟨h1, h2, f0, List.mem_cons_self _ _, hp, Or.inl hchk⟩
                  · right
                    exact ⟨h1, h2, g, List.mem_cons_of_mem _ hg, hgp, hgd⟩
                · have hstep : monitorLoop gI clock (f0 :: rest) acc =
                      (({ f0 with status := FunctionStatus.INVOKED } :
                          FaaSrFunction) :: (monitorLoop gI clock rest
                          ⟨Function.update acc.prev f0.function_name
                              FunctionStatus.INVOKED, clock, 0,
                            acc.workflow_failed, acc.exc⟩).1,
                        (monitorLoop gI clock rest
                          ⟨Function.update acc.prev f0.function_name
                              FunctionStatus.INVOKED, clock, 0,
                            acc.workflow_failed, acc.exc⟩).2) := by
                    simp [monitorLoop, hp, _handle_pending, hchk, hs0, failed,
                      pending, set_status, has_final_state, hprev]
                  rw [hstep]
                  rcases ih ⟨Function.update acc.prev f0.function_name
                      FunctionStatus.INVOKED, clock, 0, acc.workflow_failed,
                      acc.exc⟩ with ⟨h1, h2⟩ | ⟨h1, h2, g, hg, hgp, hgd⟩
                  · right
                    exact ⟨h1, h2, f0, List.mem_cons_self _ _, hp, Or.inl hchk⟩
                  · right
                    exact ⟨h1, h2, g, List.mem_cons_of_mem _ hg, hgp, hgd⟩
            | NOT_INVOKED =>
                by_cases hprev : acc.prev f0.function_name =
                    FunctionStatus.NOT_INVOKED
                · have hstep : monitorLoop gI clock (f0 :: rest) acc =
                      (({ f0 with status := FunctionStatus.NOT_INVOKED } :
                          FaaSrFunction) :: (monitorLoop gI clock rest
                          ⟨acc.prev, clock, 0, acc.workflow_failed,
                            acc.exc⟩).1,
                        (monitorLoop gI clock rest
                          ⟨acc.prev, clock, 0, acc.workflow_failed,
                            acc.exc⟩).2) := by
                    simp [monitorLoop, hp, _handle_pending, hchk, hs0, failed,
                      pending, set_status, has_final_state, hprev]
                  rw [hstep]
                  rcases ih ⟨acc.prev, clock, 0, acc.workflow_failed, acc.exc⟩
                    with ⟨h1, h2⟩ | ⟨h1, h2, g, hg, hgp, hgd⟩
                  · right
                    exact ⟨h1, h2, f0, List.mem_cons_self _ _, hp, Or.inr hchk⟩
                  · right
                    exact ⟨h1, h2, g, List.mem_cons_of_mem _ hg, hgp, hgd⟩
                · have hstep : monitorLoop gI clock (f0 :: rest) acc =
                      (({ f0 with status := FunctionStatus.NOT_INVOKED } :
                          FaaSrFunction) :: (monitorLoop gI clock rest
                          ⟨Function.update acc.prev f0.function_name
                              FunctionStatus.NOT_INVOKED, clock, 0,
                            acc.workflow_failed, acc.exc⟩).1,
                        (monitorLoop gI clock rest
                          ⟨Function.update acc.prev f0.function_name
                              FunctionStatus.NOT_INVOKED, clock, 0,
                            acc.workflow_failed, acc.exc⟩).2) := by
                    simp [monitorLoop, hp, _handle_pending, hchk, hs0, failed,
                      pending, set_status, has_final_state, hprev]
                  rw [hstep]
                  rcases ih ⟨Function.update acc.prev f0.function_name
                      FunctionStatus.NOT_INVOKED, clock, 0, acc.workflow_failed,
                      acc.exc⟩ with ⟨h1, h2⟩ | ⟨h1, h2, g, hg, hgp, hgd⟩
                  · right
                    exact ⟨h1, h2, f0, List.mem_cons_self _ _, hp, Or.inr hchk⟩
                  · right
                    exact ⟨h1, h2, g, List.mem_cons_of_mem _ hg, hgp, hgd⟩
      · by_cases hprev : acc.prev f0.function_name = f0.status
        · by_cases hfl : failed f0.status
          · have hstep : monitorLoop gI clock (f0 :: rest) acc =
                (f0 :: rest,
                  ⟨acc.prev, acc.last_change_time, acc.seconds_since_last_change,
                    true, acc.exc⟩) := by
              simp [monitorLoop, hp, hfl, hprev]
            rw [hstep]
            left
            exact ⟨rfl, rfl⟩
          · have hstep : monitorLoop gI clock (f0 :: rest) acc =
                (f0 :: (monitorLoop gI clock rest
                    ⟨acc.prev, acc.last_change_time,
                      acc.seconds_since_last_change, acc.workflow_failed,
                      acc.exc⟩).1,
                  (monitorLoop gI clock rest
                    ⟨acc.prev, acc.last_change_time,
                      acc.seconds_since_last_change, acc.workflow_failed,
                      acc.exc⟩).2) := by
              simp [monitorLoop, hp, hfl, hprev]
            rw [hstep]
            rcases ih ⟨acc.prev, acc.last_change_time,
                acc.seconds_since_last_change, acc.workflow_failed, acc.exc⟩
              with ⟨h1, h2⟩ | ⟨h1, h2, g, hg, hgp, hgd⟩
            · left; exact ⟨h1, h2⟩
            · right; exact ⟨h1, h2, g, List.mem_cons_of_mem _ hg, hgp, hgd⟩
        · by_cases hfl : failed f0.status
          · have hstep : monitorLoop gI clock (f0 :: rest) acc =
                (f0 :: rest,
                  ⟨Function.update acc.prev f0.function_name f0.status,
                    acc.last_change_time, acc.seconds_since_last_change,
                    true, acc.exc⟩) := by
              simp [monitorLoop, hp, hfl, hprev]
            rw [hstep]
            left
            exact ⟨rfl, rfl⟩
          · have hstep : monitorLoop gI clock (f0 :: rest) acc =
                (f0 :: (monitorLoop gI clock rest
                    ⟨Function.update acc.prev f0.function_name f0.status,
                      acc.last_change_time, acc.seconds_since_last_change,
                      acc.workflow_failed, acc.exc⟩).1,
                  (monitorLoop gI clock rest
                    ⟨Function.update acc.prev f0.function_name f0.status,
                      acc.last_change_time, acc.seconds_since_last_change,
                      acc.workflow_failed, acc.exc⟩).2) := by
              simp [monitorLoop, hp, hfl, hprev]
            rw [hstep]
            rcases ih ⟨Function.update acc.prev f0.function_name f0.status,
                acc.last_change_time, acc.seconds_since_last_change,
                acc.workflow_failed, acc.exc⟩
              with ⟨h1, h2⟩ | ⟨h1, h2, g, hg, hgp, hgd⟩
            · left; exact ⟨h1, h2⟩
            · right; exact ⟨h1, h2, g, List.mem_cons_of_mem _ hg, hgp, hgd⟩

/-- The tick returns the timer fields produced by the per-function loop
unchanged: neither the completion check, the cascade nor the raised
exceptions touch them. -/
lemma tick_timer_fields (gI : FaaSrFunction → List FaaSrFunction)
    (s : MonitorState) :
    (_monitor_workflow_execution gI s).1.last_change_time =
      (monitorLoop gI s.clock s.functions
        ⟨s.prev, s.last_change_time, s.seconds_since_last_change, false,
          none⟩).2.last_change_time ∧
    (_monitor_workflow_execution gI s).1.seconds_since_last_change =
      (monitorLoop gI s.clock s.functions
        ⟨s.prev, s.last_change_time, s.seconds_since_last_change, false,
          none⟩).2.seconds_since_last_change := by
  rcases hr : monitorLoop gI s.clock s.functions
      ⟨s.prev, s.last_change_time, s.seconds_since_last_change, false, none⟩
    with ⟨fns2, acc2⟩
  cases hexc : acc2.exc with
  | some e => simp [_monitor_workflow_execution, hr, hexc]
  | none =>
      by_cases hall : _all_functions_completed fns2
      · simp [_monitor_workflow_execution, hr, hexc, hall]
      · by_cases hwf : acc2.workflow_failed
        · cases hcc : (_cascade_failure fns2).2 with
          | some e => simp [_monitor_workflow_execution, hr, hexc, hall, hwf, hcc]
          | none => simp [_monitor_workflow_execution, hr, hexc, hall, hwf, hcc]
        · simp [_monitor_workflow_execution, hr, hexc, hall, hwf]

/-- Claim C5 as amended: the inactivity timer is reset by a
reconciliation tick exactly in this sense — every tick either leaves both
timer fields untouched or resets them, and a reset happens only when the
resolver committed a decisive INVOKED or NOT_INVOKED result on some PENDING
instance; other observed status changes do not reset it.  The second
conjunct: `_did_timeout` compares the accumulated inactivity seconds (time
since the last reset, not total run time) against the configured timeout,
so the loop times out only after `timeout` consecutive seconds without a
resolver decision. -/
theorem c5_timer_reset_only_on_resolver_decision :
    (∀ (gI : FaaSrFunction → List FaaSrFunction) (s : MonitorState),
      ((_monitor_workflow_execution gI s).1.last_change_time =
          s.last_change_time ∧
        (_monitor_workflow_execution gI s).1.seconds_since_last_change =
          s.seconds_since_last_change) ∨
      ((_monitor_workflow_execution gI s).1.last_change_time = s.clock ∧
        (_monitor_workflow_execution gI s).1.seconds_since_last_change = 0 ∧
        ∃ f ∈ s.functions, pending f.status = true ∧
          (_check_invocation_status (gI f) f = some InvocationStatus.INVOKED ∨
            _check_invocation_status (gI f) f =
              some InvocationStatus.NOT_INVOKED))) ∧
    (∀ (timeout : Nat) (s : MonitorState),
      _did_timeout timeout s =
        decide (timeout ≤ s.seconds_since_last_change)) := by
  constructor
  · intro gI s
    obtain ⟨hl, hs⟩ := tick_timer_fields gI s
    rcases monitorLoop_timer gI s.clock s.functions
        ⟨s.prev, s.last_change_time, s.seconds_since_last_change, false, none⟩
      with ⟨h1, h2⟩ | ⟨h1, h2, g, hg, hgp, hgd⟩
    · left; exact ⟨hl.trans h1, hs.trans h2⟩
    · right; exact ⟨hl.trans h1, hs.trans h2, g, hg, hgp, hgd⟩
  · intro timeout s; rfl

end FaaSr
